import Mathlib

/-!
Verification of the OpenAI-compatible content-generator adapter
(`packages/core/src/core/openAICompatibleContentGenerator.ts`).

The development shallowly embeds the adapter's operations: the JSON values it
manipulates, the `JSON.parse` model, the response view (`candidates`, `text`,
single-element iteration), the SSE streaming read loop, the message converter,
the token estimator, the HTTP failure paths and the unsupported `embedContent`
operation. Theorems at the end settle the specification's claims about these
operations.
-/

set_option maxRecDepth 8192

namespace OpenAICompat

/-- Model of the JavaScript values the adapter manipulates: JSON values as
produced by `JSON.parse`, plus `undefined` for the JavaScript `undefined` that a
property read on a missing key yields. -/
inductive Json where
  | null : Json
  | undefined : Json
  | bool : Bool → Json
  | num : Int → Json
  | str : String → Json
  | arr : List Json → Json
  | obj : List (String × Json) → Json

/-- JavaScript property read on an object's field list: first matching field,
or `undefined` when the key is missing. -/
def lookupField : List (String × Json) → String → Json
  | [], _ => .undefined
  | (k, v) :: rest, key => if k = key then v else lookupField rest key

/-- JavaScript property read `o[k]` on a base the read succeeds on: field
lookup on objects, `undefined` on other bases and on missing keys. A read on
a null/undefined base throws in JavaScript; definitions whose base can be
null/undefined (`mkCandidate?`, `remapChoice?`) return `none` before reading
on such a base, so this function is only ever applied where the real read
returns. -/
def jsGet : Json → String → Json
  | .obj fields, key => lookupField fields key
  | _, _ => .undefined

/-- JavaScript array index read `a[i]`: the element, or `undefined` out of
range or on non-arrays. -/
def jsIdx : Json → Nat → Json
  | .arr xs, i => xs.getD i .undefined
  | _, _ => .undefined

/-- Object spread-with-override, JavaScript `\x7b ...o, k: v \x7d`: replace the
field in place if present, append it otherwise. -/
def setField : List (String × Json) → String → Json → List (String × Json)
  | [], key, v => [(key, v)]
  | (k, w) :: rest, key, v =>
      if k = key then (key, v) :: rest else (k, w) :: setField rest key v

/-- ASCII whitespace, as skipped between JSON tokens and by `trim`. -/
def isJsonWs (c : Char) : Bool :=
  c = ' ' || c = '\n' || c = '\t' || c = '\r'

def skipWs (s : List Char) : List Char :=
  s.dropWhile isJsonWs

/-- Body of a JSON string literal after the opening quote: returns the decoded
text and the input following the closing quote. `\uXXXX` escapes decode the
code unit directly (surrogate pairs are not recombined; no payload uses
them). -/
def parseStringRest : List Char → List Char → Option (String × List Char)
  | [], _ => none
  | '"' :: rest, acc => some (String.mk acc.reverse, rest)
  | '\\' :: e :: rest, acc =>
      match e with
      | '"' => parseStringRest rest ('"' :: acc)
      | '\\' => parseStringRest rest ('\\' :: acc)
      | '/' => parseStringRest rest ('/' :: acc)
      | 'n' => parseStringRest rest ('\n' :: acc)
      | 't' => parseStringRest rest ('\t' :: acc)
      | 'r' => parseStringRest rest ('\r' :: acc)
      | 'b' => parseStringRest rest (Char.ofNat 8 :: acc)
      | 'f' => parseStringRest rest (Char.ofNat 12 :: acc)
      | 'u' =>
          match rest with
          | h1 :: h2 :: h3 :: h4 :: rest' =>
              let hex? : Char → Option Nat := fun c =>
                if '0' ≤ c ∧ c ≤ '9' then some (c.toNat - 48)
                else if 'a' ≤ c ∧ c ≤ 'f' then some (c.toNat - 87)
                else if 'A' ≤ c ∧ c ≤ 'F' then some (c.toNat - 55)
                else none
              match hex? h1, hex? h2, hex? h3, hex? h4 with
              | some a, some b, some c, some d =>
                  parseStringRest rest' (Char.ofNat (((a * 16 + b) * 16 + c) * 16 + d) :: acc)
              | _, _, _, _ => none
          | _ => none
      | _ => none
  | c :: rest, acc => parseStringRest rest (c :: acc)

/-- Decimal digit run, most significant first. -/
def digitsToNat (ds : List Char) : Nat :=
  ds.foldl (fun n c => n * 10 + (c.toNat - 48)) 0

mutual

/-- One JSON value from the front of the input. Numbers are restricted to
(optionally signed) integer literals: the adapter's payloads carry only
integer-valued numeric fields, so fraction/exponent forms are out of model.
Fuel bounds the recursion; `jsonParse` supplies enough for any input. -/
def parseValue : Nat → List Char → Option (Json × List Char)
  | 0, _ => none
  | fuel + 1, input =>
      match skipWs input with
      | 'n' :: 'u' :: 'l' :: 'l' :: rest => some (.null, rest)
      | 't' :: 'r' :: 'u' :: 'e' :: rest => some (.bool true, rest)
      | 'f' :: 'a' :: 'l' :: 's' :: 'e' :: rest => some (.bool false, rest)
      | '"' :: rest =>
          match parseStringRest rest [] with
          | some (s, rest') => some (.str s, rest')
          | none => none
      | '[' :: rest =>
          (match skipWs rest with
           | ']' :: rest' => some (.arr [], rest')
           | other => parseElems fuel other [])
      | '\x7b' :: rest =>
          (match skipWs rest with
           | '\x7d' :: rest' => some (.obj [], rest')
           | other => parseFields fuel other [])
      | '-' :: rest =>
          let ds := rest.takeWhile Char.isDigit
          if ds.isEmpty then none
          else some (.num (-(digitsToNat ds : Int)), rest.dropWhile Char.isDigit)
      | c :: rest =>
          if c.isDigit then
            some (.num (digitsToNat ((c :: rest).takeWhile Char.isDigit) : Int),
              (c :: rest).dropWhile Char.isDigit)
          else none
      | [] => none

/-- Elements of a JSON array after the opening bracket (first element
pending). -/
def parseElems : Nat → List Char → List Json → Option (Json × List Char)
  | 0, _, _ => none
  | fuel + 1, input, acc =>
      match parseValue fuel input with
      | none => none
      | some (v, rest) =>
          match skipWs rest with
          | ',' :: rest' => parseElems fuel rest' (v :: acc)
          | ']' :: rest' => some (.arr (v :: acc).reverse, rest')
          | _ => none

/-- Fields of a JSON object after the opening brace (first field pending). -/
def parseFields : Nat → List Char → List (String × Json) → Option (Json × List Char)
  | 0, _, _ => none
  | fuel + 1, input, acc =>
      match skipWs input with
      | '"' :: rest =>
          match parseStringRest rest [] with
          | none => none
          | some (key, rest') =>
              match skipWs rest' with
              | ':' :: afterColon =>
                  match parseValue fuel afterColon with
                  | none => none
                  | some (v, afterValue) =>
                      match skipWs afterValue with
                      | ',' :: afterComma => parseFields fuel afterComma ((key, v) :: acc)
                      | '\x7d' :: afterBrace => some (.obj ((key, v) :: acc).reverse, afterBrace)
                      | _ => none
              | _ => none
      | _ => none

end

/-- Model of `JSON.parse`: one JSON value, then only trailing whitespace;
`none` models a thrown `SyntaxError`. -/
def jsonParse (s : String) : Option Json :=
  match parseValue (2 * s.length + 4) s.toList with
  | some (v, rest) => if skipWs rest = [] then some v else none
  | none => none

/-- Model of JavaScript `s.startsWith(pre)`. -/
def jsStartsWith (s pre : String) : Bool :=
  pre.toList.isPrefixOf s.toList

/-- Model of JavaScript `s.substring(n)` (code-unit drop; every prefix dropped
here is ASCII, where it coincides with character drop). -/
def jsDrop (s : String) (n : Nat) : String :=
  ⟨s.toList.drop n⟩

/-- Model of JavaScript `s.trim()`, restricted to the ASCII whitespace the
payloads can carry. -/
def jsTrim (s : String) : String :=
  ⟨((s.toList.dropWhile isJsonWs).reverse.dropWhile isJsonWs).reverse⟩

/-- Split on the double-newline event separator: the non-overlapping
left-to-right scan of JavaScript `chunk.split(sep)` for `sep = '\n\n'`,
keeping empty pieces. -/
def splitChunkAux : List Char → List Char → List (List Char)
  | [], acc => [acc.reverse]
  | '\n' :: '\n' :: rest, acc => acc.reverse :: splitChunkAux rest []
  | c :: rest, acc => splitChunkAux rest (c :: acc)

def jsSplitOnSeparator (chunk : String) : List String :=
  (splitChunkAux chunk.toList []).map fun cs => (⟨cs⟩ : String)

/-- One text part of a candidate's content, `\x7b text: ... \x7d`. Its `text` is a
`Json` value because the source copies `choice.message.content` through
untyped: it is the JavaScript `undefined` when the content field is absent. -/
structure TextPart where
  text : Json

/-- The `content` entry built for each choice. -/
structure CandidateContent where
  role : String
  parts : List TextPart

/-- One entry of the view's `candidates` list. -/
structure Candidate where
  index : Json
  content : CandidateContent
  finishReason : Json
  citationSources : List Json

/-- The candidate record the map callback builds once its property reads are
known to succeed. -/
def mkCandidate (choice : Json) : Candidate :=
  { index := jsGet choice "index"
    content := { role := "model", parts := [⟨jsGet (jsGet choice "message") "content"⟩] }
    finishReason := jsGet choice "finish_reason"
    citationSources := [] }

/-- One step of the `candidates` map callback. `none` models the TypeError
the callback throws: `choice.index` on a null/undefined choice, and
`choice.message.content` when `choice.message` is null or undefined (in
particular when the `message` key is missing). Any other base lets every
read return (possibly `undefined`). -/
def mkCandidate? (choice : Json) : Option Candidate :=
  match choice with
  | .null => none
  | .undefined => none
  | _ =>
      match jsGet choice "message" with
      | .null => none
      | .undefined => none
      | _ => some (mkCandidate choice)

/-- Left-to-right run of `choices.map(...)`: the TypeError at the first bad
choice aborts the whole map with nothing produced. -/
def mapCandidates : List Json → Option (List Candidate)
  | [] => some []
  | choice :: rest =>
      match mkCandidate? choice with
      | none => none
      | some cand =>
          match mapCandidates rest with
          | none => none
          | some cands => some (cand :: cands)

/-- The view's `candidates` getter: `this.data.choices.map(...)`; `none`
models the thrown TypeError — `choices` not an array (or `data` itself
nullish), or a throwing read inside the map callback. -/
def OpenAIGenerateContentResponse.candidates (data : Json) : Option (List Candidate) :=
  match jsGet data "choices" with
  | .arr cs => mapCandidates cs
  | _ => none

/-- The view's `text` getter: `this.data.choices[0].message.content`. The
interface contract has callers read `text` only when at least one choice
exists; the theorems below apply it only at concrete payloads of that shape,
where every read in the chain returns. -/
def OpenAIGenerateContentResponse.text (data : Json) : Json :=
  jsGet (jsGet (jsIdx (jsGet data "choices") 0) "message") "content"

/-- One result of the view's iterator protocol: the returned
`\x7b value, done \x7d` pair. -/
structure IterResult (α : Type) where
  value : α
  done : Bool

/-- The `next()` closure of the view's `Symbol.iterator`: the captured counter
`i` is the second component; the first call (counter 0) returns the view
itself not-done, every later call returns done. -/
def iterNext {α : Type} (self : α) (i : Nat) : IterResult α × Nat :=
  if i = 0 then (⟨self, false⟩, i + 1) else (⟨self, true⟩, i + 1)

/-- Driving the iterator per the JavaScript iteration protocol: call `next()`
repeatedly, collecting values until `done` is reported (the value attached to
a done result is discarded). Fuel bounds the loop. -/
def iterDrive {α : Type} (self : α) : Nat → Nat → List α
  | 0, _ => []
  | fuel + 1, i =>
      match iterNext self i with
      | (r, i') => if r.done then [] else r.value :: iterDrive self fuel i'

/-- Remap of one streaming choice, from
`(choice) => (\x7b ...choice, message: choice.delta \x7d)`. `none` models the
TypeError of the `choice.delta` read on a null/undefined choice. Any other
non-object choice spreads to an object holding only the `message` field
(JSON.parse never yields the string/array bases whose spread would also
scatter index properties). -/
def remapChoice? (choice : Json) : Option Json :=
  match choice with
  | .null => none
  | .undefined => none
  | .obj fields => some (.obj (setField fields "message" (lookupField fields "delta")))
  | _ => some (.obj [("message", Json.undefined)])

/-- Left-to-right run of `data.choices.map(remap)`: the TypeError at the
first nullish choice aborts the map. -/
def remapChoices : List Json → Option (List Json)
  | [] => some []
  | choice :: rest =>
      match remapChoice? choice with
      | none => none
      | some mapped =>
          match remapChoices rest with
          | none => none
          | some rest' => some (mapped :: rest')

/-- Remap of a parsed delta payload, from
`\x7b ...data, choices: data.choices.map(remap) \x7d`; `none` models the TypeError
thrown when `data.choices` is not an array or a choice inside the map is
nullish. -/
def remapData (data : Json) : Option Json :=
  match data with
  | .obj fields =>
      match lookupField fields "choices" with
      | .arr cs =>
          match remapChoices cs with
          | none => none
          | some cs' => some (.obj (setField fields "choices" (.arr cs')))
      | _ => none
  | _ => none

/-- How the streaming generator finished: transport end-of-stream, the
`[DONE]` sentinel (both successful), or a thrown error while handling the
recorded segment payload. -/
inductive StreamOutcome where
  | ended : StreamOutcome
  | doneSentinel : StreamOutcome
  | parseError : String → StreamOutcome
  | mapError : String → StreamOutcome

/-- What the inner `for` loop over one chunk's segments decided: keep reading,
or halt the whole generator with the given outcome. -/
inductive ChunkOutcome where
  | next : ChunkOutcome
  | halt : StreamOutcome → ChunkOutcome

/-- The `for (const line of lines)` body of the streaming generator: segments
without the `data: ` prefix are skipped; a payload trimming to `[DONE]`
returns; a JSON parse failure throws; otherwise the remapped payload is
yielded. Returns the payloads yielded from this chunk and whether the
generator halted. -/
def processSegments (parse : String → Option Json) : List String → List Json × ChunkOutcome
  | [] => ([], .next)
  | line :: rest =>
      if jsStartsWith line "data: " then
        let json := jsDrop line ("data: ".length)
        if jsTrim json = "[DONE]" then ([], .halt .doneSentinel)
        else
          match parse json with
          | none => ([], .halt (.parseError json))
          | some data =>
              match remapData data with
              | none => ([], .halt (.mapError json))
              | some payload =>
                  let r := processSegments parse rest
                  (payload :: r.1, r.2)
      else processSegments parse rest

/-- The `while (true)` read loop of `generateContentStream`: each read's
decoded chunk is split on the double-newline separator and its segments
processed; reading stops when the transport reports done or the segment loop
halted. The input list holds each read's decoded text, in order. -/
def runStream (parse : String → Option Json) : List String → List Json × StreamOutcome
  | [] => ([], .ended)
  | chunk :: rest =>
      match processSegments parse (jsSplitOnSeparator chunk) with
      | (ys, .halt o) => (ys, o)
      | (ys, .next) =>
          let r := runStream parse rest
          (ys ++ r.1, r.2)

/-- One part of a structured content entry; `text` is optional in the
abstract interface's `Part` type. -/
structure GenPart where
  text : Option String

/-- One entry of the structured contents; both `role` and `parts` are optional
in the abstract interface's `Content` type. -/
structure Content where
  role : Option String
  parts : Option (List GenPart)

/-- One flat chat message sent to the OpenAI-style endpoint. -/
structure ChatMessage where
  role : String
  content : String

/-- JavaScript `(content.parts ?? []).map((part) => part.text).join('')`:
`Array.prototype.join` renders an `undefined` element as the empty string. -/
def partsText (content : Content) : String :=
  String.join ((content.parts.getD []).map fun part => part.text.getD "")

/-- The `for` loop of `convertToOpenAIMessages`, pushing one message per
content entry onto the accumulated array. -/
def convertToOpenAIMessagesLoop : List Content → List ChatMessage → List ChatMessage
  | [], messages => messages
  | content :: rest, messages =>
      convertToOpenAIMessagesLoop rest
        (messages ++ [⟨if content.role = some "model" then "assistant" else "user",
          partsText content⟩])

def convertToOpenAIMessages (contents : List Content) : List ChatMessage :=
  convertToOpenAIMessagesLoop contents []

/-- The request's `contents` field: either a bare string or structured
content entries. -/
inductive RequestContents where
  | str : String → RequestContents
  | list : List Content → RequestContents

/-- `contentsToParts`: a bare string becomes a single user entry with one text
part; structured contents pass through unchanged. -/
def contentsToParts : RequestContents → List Content
  | .str s => [⟨some "user", some [⟨some s⟩]⟩]
  | .list cs => cs

/-- The text assembled by `countTokens`: per-entry part texts joined with no
separator, then the entries joined with no separator. -/
def assembledText (request : RequestContents) : String :=
  String.join ((contentsToParts request).map partsText)

/-- `countTokens`: `Math.ceil(text.length / 4)`, which on natural numbers is
`(length + 3) / 4`. -/
def countTokens (request : RequestContents) : Nat :=
  ((assembledText request).length + 3) / 4

/-- All part texts of a request in order, flattened across entries, each
absent text contributing the empty string. -/
def allPartTexts (request : RequestContents) : List String :=
  ((contentsToParts request).map fun content =>
    (content.parts.getD []).map fun part => part.text.getD "").flatten

/-- Outcome of one adapter call: the resolved value, the message of a thrown
`Error` where the source specifies it, or a body-JSON rejection whose message
is engine-supplied. -/
inductive CallResult (α : Type) where
  | success : α → CallResult α
  | failure : String → CallResult α
  | jsonError : CallResult α

/-- The transport's response as the adapter reads it: `status`, `statusText`,
the full body text, and (for the streaming call) the readable body as the
list of decoded reads, absent when there is no body. -/
structure HttpResponse where
  status : Nat
  statusText : String
  bodyText : String
  body? : Option (List String)

/-- `response.ok` per the fetch specification: status in the 200-299 range. -/
def HttpResponse.ok (r : HttpResponse) : Bool :=
  200 ≤ r.status && r.status < 300

/-- The thrown message on a non-ok response, from the template literal
`Failed to fetch from local LLM: status statusText bodyText`. -/
def fetchErrorText (r : HttpResponse) : String :=
  "Failed to fetch from local LLM: " ++ toString r.status ++ " " ++ r.statusText
    ++ " " ++ r.bodyText

/-- `generateContent` from the point the transport's response is available:
non-ok status throws with the full error text; otherwise the body is parsed
once and the view wraps the parsed payload. One response, consumed once — no
retry path exists. -/
def generateContent (r : HttpResponse) : CallResult Json :=
  if r.ok then
    match jsonParse r.bodyText with
    | some data => .success data
    | none => .jsonError
  else .failure (fetchErrorText r)

/-- `generateContentStream` from the point the transport's response is
available: non-ok status throws exactly as the non-streaming path; a missing
body throws `No response body`; otherwise the generator consumes the reads.
One response, consumed once — no retry path exists. -/
def generateContentStream (r : HttpResponse) : CallResult (List Json × StreamOutcome) :=
  if r.ok then
    match r.body? with
    | none => .failure "No response body"
    | some chunks => .success (runStream jsonParse chunks)
  else .failure (fetchErrorText r)

/-- The abstract interface's embedding response; never constructed by this
adapter. -/
structure EmbedContentResponse where
  embeddings : List Json

/-- `embedContent` throws unconditionally, before any request is formed. -/
def embedContent (request : Json) : CallResult EmbedContentResponse :=
  .failure "embedContent not supported"

/-- The first SSE frame of the specification's streaming example. -/
def frameHe : String :=
  "data: \x7b\"choices\":[\x7b\"index\":0,\"delta\":\x7b\"content\":\"He\"\x7d,\"finish_reason\":null\x7d]\x7d\n\n"

/-- The second SSE frame of the specification's streaming example. -/
def frameLlo : String :=
  "data: \x7b\"choices\":[\x7b\"index\":0,\"delta\":\x7b\"content\":\"llo\"\x7d,\"finish_reason\":\"stop\"\x7d]\x7d\n\n"

/-- The terminating sentinel frame. -/
def frameDone : String := "data: [DONE]\n\n"

/-- First read of a well-formed event split mid-JSON: the separator lies past
this chunk's edge. -/
def chunkHead : String := "data: \x7b\"choices\":[\x7b\"index\":0,\"del"

/-- Second read completing the same event. -/
def chunkTail : String := "ta\":\x7b\"content\":\"Hi\"\x7d,\"finish_reason\":null\x7d]\x7d\n\n"

/-- A completion payload whose single choice carries a `message` object with
no `content` field (as the final chunk of a real stream does). -/
def absentContentPayload : Json :=
  .obj [("choices", .arr [.obj [("index", .num 0), ("message", .obj []),
    ("finish_reason", .str "stop")]])]

/-- A completion payload with one ordinary choice. -/
def fullPayload : Json :=
  .obj [("choices", .arr [.obj [("index", .num 0),
    ("message", .obj [("content", .str "hi")]), ("finish_reason", .str "stop")]])]

/-! Helper lemmas shared by the claim theorems. -/

theorem convertToOpenAIMessagesLoop_eq (contents : List Content) (acc : List ChatMessage) :
    convertToOpenAIMessagesLoop contents acc =
      acc ++ contents.map fun content =>
        ⟨if content.role = some "model" then "assistant" else "user", partsText content⟩ := by
  induction contents generalizing acc with
  | nil => simp [convertToOpenAIMessagesLoop]
  | cons content rest ih => simp [convertToOpenAIMessagesLoop, ih]

theorem convertToOpenAIMessages_eq_map (contents : List Content) :
    convertToOpenAIMessages contents =
      contents.map fun content =>
        ⟨if content.role = some "model" then "assistant" else "user", partsText content⟩ := by
  simpa using convertToOpenAIMessagesLoop_eq contents []

theorem join_map_join (ls : List (List String)) :
    String.join (ls.map String.join) = String.join ls.flatten := by
  apply String.ext
  simp only [String.data_join, List.map_map, Function.comp_def, List.map_flatten]
  rw [List.flatten_flatten]
  simp [List.map_map, Function.comp_def]

theorem mkCandidate?_eq_some (choice : Json)
    (h1 : choice ≠ Json.null) (h2 : choice ≠ Json.undefined)
    (h3 : jsGet choice "message" ≠ Json.null)
    (h4 : jsGet choice "message" ≠ Json.undefined) :
    mkCandidate? choice = some (mkCandidate choice) := by
  cases choice with
  | null => exact absurd rfl h1
  | undefined => exact absurd rfl h2
  | bool b => exact absurd rfl h4
  | num n => exact absurd rfl h4
  | str s => exact absurd rfl h4
  | arr xs => exact absurd rfl h4
  | obj fields =>
      cases hm : jsGet (Json.obj fields) "message" with
      | null => exact absurd hm h3
      | undefined => exact absurd hm h4
      | bool b => simp [mkCandidate?, hm]
      | num n => simp [mkCandidate?, hm]
      | str s => simp [mkCandidate?, hm]
      | arr xs => simp [mkCandidate?, hm]
      | obj mf => simp [mkCandidate?, hm]

theorem mapCandidates_eq_map (cs : List Json)
    (hsafe : ∀ choice ∈ cs, choice ≠ Json.null ∧ choice ≠ Json.undefined
      ∧ jsGet choice "message" ≠ Json.null ∧ jsGet choice "message" ≠ Json.undefined) :
    mapCandidates cs = some (cs.map mkCandidate) := by
  induction cs with
  | nil => rfl
  | cons choice rest ih =>
      obtain ⟨h1, h2, h3, h4⟩ := hsafe choice (List.mem_cons_self choice rest)
      have hrest := ih fun x hx => hsafe x (List.mem_cons_of_mem choice hx)
      simp [mapCandidates, mkCandidate?_eq_some choice h1 h2 h3 h4, hrest]

theorem processSegments_skip (parse : String → Option Json) (line : String)
    (rest : List String) (h : jsStartsWith line "data: " = false) :
    processSegments parse (line :: rest) = processSegments parse rest := by
  simp [processSegments, h]

theorem processSegments_done (parse : String → Option Json) (line : String)
    (rest : List String) (h1 : jsStartsWith line "data: " = true)
    (h2 : jsTrim (jsDrop line ("data: ".length)) = "[DONE]") :
    processSegments parse (line :: rest) = ([], .halt .doneSentinel) := by
  simp [processSegments, h1, h2]

theorem processSegments_append_of_next (parse : String → Option Json)
    (l1 l2 : List String) (ys : List Json)
    (h : processSegments parse l1 = (ys, ChunkOutcome.next)) :
    processSegments parse (l1 ++ l2) =
      (ys ++ (processSegments parse l2).1, (processSegments parse l2).2) := by
  induction l1 generalizing ys with
  | nil =>
      simp only [processSegments] at h
      injection h with h1 h2
      subst h1
      simp
  | cons line rest ih =>
      rw [List.cons_append]
      by_cases hpre : jsStartsWith line "data: " = true
      case neg =>
        have hfalse : jsStartsWith line "data: " = false := by simpa using hpre
        rw [processSegments_skip parse line rest hfalse] at h
        rw [processSegments_skip parse line (rest ++ l2) hfalse]
        exact ih ys h
      case pos =>
      by_cases hdone : jsTrim (jsDrop line ("data: ".length)) = "[DONE]"
      case pos =>
        rw [processSegments_done parse line rest hpre hdone] at h
        exact ChunkOutcome.noConfusion (congrArg Prod.snd h)
      case neg =>
      simp only [processSegments] at h ⊢
      rw [if_pos hpre] at h ⊢
      rw [if_neg hdone] at h ⊢
      cases hp : parse (jsDrop line ("data: ".length)) with
      | none =>
          rw [hp] at h
          simp at h
      | some data =>
          rw [hp] at h
          simp only [Option.some.injEq] at h ⊢
          cases hr : remapData data with
          | none =>
              simp [hr] at h
          | some payload =>
              simp only [hr] at h ⊢
              simp at h
              obtain ⟨h1, h2⟩ := h
              have hrest : processSegments parse rest =
                  ((processSegments parse rest).1, ChunkOutcome.next) := by
                rw [← h2]
              rw [ih (processSegments parse rest).1 hrest, ← h1]
              simp

/-! The claims. -/

/-- Claim C1: delivering the three frames `data: ...He...`, `data: ...llo...`
and `data: [DONE]`, each as one complete read, makes the streaming generator
yield exactly two response views whose `text` values are `"He"` then `"llo"`
(each choice's `delta` remapped to its `message`), and the sequence terminates
at the sentinel after the second element with no error. -/
theorem streaming_example_yields_two_views :
    (runStream jsonParse [frameHe, frameLlo, frameDone]).1.length = 2
    ∧ (runStream jsonParse [frameHe, frameLlo, frameDone]).1.map
        OpenAIGenerateContentResponse.text = [Json.str "He", Json.str "llo"]
    ∧ (runStream jsonParse [frameHe, frameLlo, frameDone]).2
        = StreamOutcome.doneSentinel :=
  ⟨rfl, rfl, rfl⟩

/-- Claim C2: a well-formed SSE event split across two reads (the separator
past the first chunk's edge) leaves a truncated trailing segment that still
begins with `data: `; its JSON payload fails to parse, so the whole sequence
aborts with a fatal decode error — even though the same bytes delivered in a
single read decode to one valid event. -/
theorem straddling_event_aborts_stream :
    jsStartsWith chunkHead "data: " = true
    ∧ jsonParse (jsDrop chunkHead ("data: ".length)) = none
    ∧ runStream jsonParse [chunkHead, chunkTail]
        = ([], StreamOutcome.parseError (jsDrop chunkHead ("data: ".length)))
    ∧ (runStream jsonParse [chunkHead ++ chunkTail]).1.map
        OpenAIGenerateContentResponse.text = [Json.str "Hi"]
    ∧ (runStream jsonParse [chunkHead ++ chunkTail]).2 = StreamOutcome.ended :=
  ⟨rfl, rfl, rfl, rfl, rfl⟩

/-- Claim C3: the message converter emits exactly one chat message per content
entry, in order, mapping role `model` to `assistant` and every other role to
`user`, with content the in-order concatenation of the entry's part texts
where a part lacking text contributes the empty string. -/
theorem converter_one_message_per_entry (contents : List Content) :
    (convertToOpenAIMessages contents).length = contents.length
    ∧ ∀ i : Nat, (convertToOpenAIMessages contents)[i]? =
        (contents[i]?).map fun content =>
          ChatMessage.mk (if content.role = some "model" then "assistant" else "user")
            (String.join ((content.parts.getD []).map fun part => part.text.getD "")) := by
  rw [convertToOpenAIMessages_eq_map]
  refine ⟨List.length_map _ _, fun i => ?_⟩
  rw [List.getElem?_map]
  rfl

/-- Claim C4 counterexample: a choice whose `message` object has no `content`
field produces a candidate part whose `text` is the JavaScript `undefined`
value copied through verbatim, not the empty string the claim asserts. -/
theorem candidates_absent_content_not_empty :
    ((OpenAIGenerateContentResponse.candidates absentContentPayload).getD []).map
        (fun c => c.content.parts.map TextPart.text) = [[Json.undefined]]
    ∧ Json.undefined ≠ Json.str "" :=
  ⟨rfl, fun h => Json.noConfusion h⟩

/-- The getter's restored error path at the reads the callback performs: a
choice with no `message` key makes `choice.message.content` throw, and a null
choice makes `choice.index` throw; neither produces a candidates list. -/
theorem candidates_throw_on_bad_choice :
    OpenAIGenerateContentResponse.candidates
      (Json.obj [("choices", Json.arr [Json.obj [("index", Json.num 0),
        ("finish_reason", Json.str "stop")]])]) = none
    ∧ OpenAIGenerateContentResponse.candidates
        (Json.obj [("choices", Json.arr [Json.null])]) = none :=
  ⟨rfl, rfl⟩

/-- Claim C4 (amended): for every payload whose `choices` field is an array
and whose every choice is non-nullish with a non-nullish `message` (exactly
the payloads on which the getter's property reads return instead of throwing
a TypeError), `candidates` has one entry per choice, in order, each with role
`model`, exactly one text part whose `text` is `choice.message.content`
copied through verbatim (the JavaScript `undefined`, not the empty string,
when that content is absent), `finishReason` equal to the choice's
`finish_reason` verbatim, and an empty citation-sources list. On a choice
list outside that domain the getter throws instead. -/
theorem candidates_shape (data : Json) (cs : List Json)
    (h : jsGet data "choices" = Json.arr cs)
    (hsafe : ∀ choice ∈ cs, choice ≠ Json.null ∧ choice ≠ Json.undefined
      ∧ jsGet choice "message" ≠ Json.null ∧ jsGet choice "message" ≠ Json.undefined) :
    OpenAIGenerateContentResponse.candidates data = some (cs.map mkCandidate)
    ∧ (cs.map mkCandidate).length = cs.length
    ∧ ∀ i : Nat, (cs.map mkCandidate)[i]? = (cs[i]?).map fun choice =>
        Candidate.mk (jsGet choice "index")
          (CandidateContent.mk "model" [TextPart.mk (jsGet (jsGet choice "message") "content")])
          (jsGet choice "finish_reason") [] := by
  refine ⟨?_, List.length_map _ _, fun i => ?_⟩
  · unfold OpenAIGenerateContentResponse.candidates
    rw [h]
    exact mapCandidates_eq_map cs hsafe
  · rw [List.getElem?_map]
    rfl

/-- Witness for claim C4's amended theorem at a concrete payload, discharging
both hypotheses. -/
theorem candidates_shape_witness :
    jsGet fullPayload "choices" = Json.arr [.obj [("index", .num 0),
      ("message", .obj [("content", .str "hi")]), ("finish_reason", .str "stop")]]
    ∧ OpenAIGenerateContentResponse.candidates fullPayload
        = some ([Json.obj [("index", .num 0), ("message", .obj [("content", .str "hi")]),
            ("finish_reason", .str "stop")]].map mkCandidate) := by
  refine ⟨rfl, (candidates_shape fullPayload _ rfl ?_).1⟩
  intro choice hmem
  rw [List.mem_singleton] at hmem
  subst hmem
  exact ⟨fun hc => Json.noConfusion hc, fun hc => Json.noConfusion hc,
    fun hc => Json.noConfusion hc, fun hc => Json.noConfusion hc⟩

/-- Claim C5: any non-success HTTP status makes both the non-streaming and the
streaming call fail with a single fatal error whose message carries the status
code, the status text and the full body text; the response is consumed once
with no retry path. -/
theorem http_error_carries_status_and_body (r : HttpResponse)
    (h : r.ok = false) :
    generateContent r = CallResult.failure (fetchErrorText r)
    ∧ generateContentStream r = CallResult.failure (fetchErrorText r)
    ∧ fetchErrorText r = "Failed to fetch from local LLM: " ++ toString r.status
        ++ " " ++ r.statusText ++ " " ++ r.bodyText := by
  refine ⟨?_, ?_, rfl⟩
  · unfold generateContent
    rw [h]
    rfl
  · unfold generateContentStream
    rw [h]
    rfl

/-- Witness for claim C5: HTTP 500 with body `boom` yields the fatal error
whose message contains `500` and `boom`. -/
theorem http_error_witness :
    HttpResponse.ok ⟨500, "Internal Server Error", "boom", none⟩ = false
    ∧ generateContent ⟨500, "Internal Server Error", "boom", none⟩
        = CallResult.failure
            ("Failed to fetch from local LLM: " ++ "500" ++ " Internal Server Error " ++ "boom") :=
  ⟨rfl, (http_error_carries_status_and_body ⟨500, "Internal Server Error", "boom", none⟩ rfl).1⟩

/-- Claim C6: the token estimator concatenates all part texts across all
entries with no separator and returns the ceiling of a quarter of the total
length; it is a pure function of that text, monotone non-decreasing in its
length, with the empty string giving 0, a 4-character string 1 and a
5-character string 2. -/
theorem countTokens_ceil_quarter :
    (∀ request, countTokens request = ((String.join (allPartTexts request)).length + 3) / 4)
    ∧ (∀ r1 r2 : RequestContents,
        (String.join (allPartTexts r1)).length ≤ (String.join (allPartTexts r2)).length →
          countTokens r1 ≤ countTokens r2)
    ∧ countTokens (.str "") = 0
    ∧ countTokens (.str "abcd") = 1
    ∧ countTokens (.str "abcde") = 2 := by
  have key : ∀ request, assembledText request = String.join (allPartTexts request) := by
    intro request
    unfold assembledText allPartTexts partsText
    rw [← join_map_join, List.map_map]
    rfl
  refine ⟨fun request => ?_, fun r1 r2 h => ?_, rfl, rfl, rfl⟩
  · unfold countTokens
    rw [key]
  · unfold countTokens
    rw [key, key]
    exact Nat.div_le_div_right (Nat.add_le_add_right h 3)

/-- Witness for claim C6's monotonicity at concrete inputs. -/
theorem countTokens_ceil_quarter_witness :
    (String.join (allPartTexts (RequestContents.str "ab"))).length
      ≤ (String.join (allPartTexts (RequestContents.str "abcdef"))).length
    ∧ countTokens (RequestContents.str "ab") ≤ countTokens (RequestContents.str "abcdef") :=
  ⟨by decide, countTokens_ceil_quarter.2.1 (RequestContents.str "ab")
    (RequestContents.str "abcdef") (by decide)⟩

/-- Claim C7: a segment that does not start with the literal `data: ` prefix
is silently ignored — it yields nothing, raises nothing, and decoding
continues with the remaining segments; a prefixed segment whose payload trims
to `[DONE]` terminates the generator successfully (the sentinel outcome, not
an error). -/
theorem segment_dispatch (parse : String → Option Json) :
    (∀ (line : String) (rest : List String), jsStartsWith line "data: " = false →
      processSegments parse (line :: rest) = processSegments parse rest)
    ∧ (∀ (line : String) (rest : List String), jsStartsWith line "data: " = true →
        jsTrim (jsDrop line ("data: ".length)) = "[DONE]" →
        processSegments parse (line :: rest)
          = ([], ChunkOutcome.halt StreamOutcome.doneSentinel)) :=
  ⟨fun line rest h => processSegments_skip parse line rest h,
   fun line rest h1 h2 => processSegments_done parse line rest h1 h2⟩

/-- Witness for claim C7 at concrete segments: a keep-alive comment line is
skipped, and a sentinel line halts with the successful sentinel outcome. -/
theorem segment_dispatch_witness :
    processSegments jsonParse [": keep-alive", "data: [DONE]"]
      = processSegments jsonParse ["data: [DONE]"]
    ∧ processSegments jsonParse ["data: [DONE]", "data: \x7b\"choices\":[]\x7d"]
      = ([], ChunkOutcome.halt StreamOutcome.doneSentinel) :=
  ⟨(segment_dispatch jsonParse).1 ": keep-alive" ["data: [DONE]"] rfl,
   (segment_dispatch jsonParse).2 "data: [DONE]" ["data: \x7b\"choices\":[]\x7d"] rfl rfl⟩

/-- Claim C8: `embedContent` fails on every input with the
unsupported-operation error, synchronously and unconditionally; it never
succeeds. -/
theorem embedContent_always_fails (request : Json) :
    embedContent request = CallResult.failure "embedContent not supported"
    ∧ ∀ resp : EmbedContentResponse,
        embedContent request ≠ CallResult.success resp :=
  ⟨rfl, fun _ h => CallResult.noConfusion h⟩

/-- Claim C9: iterating a response view yields exactly one element — the view
itself — and then terminates; every call to `next()` after the first reports
done, so no second element is ever produced. -/
theorem view_iterates_once {α : Type} (self : α) :
    (∀ fuel : Nat, iterDrive self (fuel + 2) 0 = [self])
    ∧ ∀ j : Nat, (iterNext self (j + 1)).1.done = true := by
  constructor
  · intro fuel
    simp [iterDrive, iterNext]
  · intro j
    simp [iterNext]

/-- Claim C10: once a segment whose payload trims to `[DONE]` is reached, the
generator returns at the sentinel: the remaining segments of the same decoded
chunk and every subsequent chunk are never processed, and nothing further is
yielded. -/
theorem sentinel_halts_generator (parse : String → Option Json) (chunk : String)
    (segs1 segs2 : List String) (line : String) (later : List String) (ys : List Json)
    (hsplit : jsSplitOnSeparator chunk = segs1 ++ line :: segs2)
    (hpre : jsStartsWith line "data: " = true)
    (hdone : jsTrim (jsDrop line ("data: ".length)) = "[DONE]")
    (hsegs : processSegments parse segs1 = (ys, ChunkOutcome.next)) :
    runStream parse (chunk :: later) = (ys, StreamOutcome.doneSentinel) := by
  have hstop : processSegments parse (jsSplitOnSeparator chunk)
      = (ys, ChunkOutcome.halt StreamOutcome.doneSentinel) := by
    rw [hsplit, processSegments_append_of_next parse segs1 (line :: segs2) ys hsegs,
      processSegments_done parse line segs2 hpre hdone]
    simp
  simp [runStream, hstop]

/-- Witness for claim C10: a chunk carrying the sentinel followed by a further
valid event, with another chunk behind it, yields nothing at all. -/
theorem sentinel_halts_generator_witness :
    runStream jsonParse
      ["data: [DONE]\n\ndata: \x7b\"choices\":[\x7b\"index\":0,\"delta\":\x7b\"content\":\"dropped\"\x7d,\"finish_reason\":null\x7d]\x7d\n\n",
       "data: \x7b\"choices\":[\x7b\"index\":0,\"delta\":\x7b\"content\":\"late\"\x7d,\"finish_reason\":null\x7d]\x7d\n\n"]
      = ([], StreamOutcome.doneSentinel) :=
  sentinel_halts_generator jsonParse
    "data: [DONE]\n\ndata: \x7b\"choices\":[\x7b\"index\":0,\"delta\":\x7b\"content\":\"dropped\"\x7d,\"finish_reason\":null\x7d]\x7d\n\n"
    [] ["data: \x7b\"choices\":[\x7b\"index\":0,\"delta\":\x7b\"content\":\"dropped\"\x7d,\"finish_reason\":null\x7d]\x7d", ""]
    "data: [DONE]"
    ["data: \x7b\"choices\":[\x7b\"index\":0,\"delta\":\x7b\"content\":\"late\"\x7d,\"finish_reason\":null\x7d]\x7d\n\n"]
    [] rfl rfl rfl rfl

end OpenAICompat
